import Mathlib

set_option maxRecDepth 10000

/-!
Verification of the attendance / PPE-compliance service in `app.py`
(Flask + Supabase + Gemini). The handlers are embedded shallowly:

* external services (Supabase tables, object storage, the Gemini call)
  are modelled by explicit state (lists of rows, a trace of effect
  events) and by oracles for the outcomes of external calls
  (`Except Unit (Option String)` for the classifier, a `Bool` for
  whether the attendance insert succeeds);
* Python builtins used by the code (`str.split`, `str.strip`,
  `str.upper`, `str.replace`, `int(...)`, `str(...)`, truthiness of
  `data.get(...)`, `base64.b64decode`) are modelled as executable Lean
  functions on `List Char` / `String`;
* every handler returns the list of external-effect events it performed
  (in order) together with the JSON response it produced.
-/

/-! ## Python string primitives -/

/-- Whitespace characters recognised by Python `str.strip()` (ASCII part;
all strings handled by the program are ASCII). -/
def isPySpace (c : Char) : Bool :=
  c = ' ' || c = Char.ofNat 9 || c = Char.ofNat 10 || c = Char.ofNat 11 ||
  c = Char.ofNat 12 || c = Char.ofNat 13

/-- Strip leading and trailing whitespace from a character list. -/
def stripChars (l : List Char) : List Char :=
  ((l.dropWhile isPySpace).reverse.dropWhile isPySpace).reverse

/-- Python `s.strip()`. -/
def pyStrip (s : String) : String :=
  String.mk (stripChars s.data)

/-- Python `s.upper()` (ASCII: every string the program upper-cases is
the classifier reply, which is ASCII). -/
def pyUpper (s : String) : String :=
  String.mk (s.data.map Char.toUpper)

/-- If `p` is a leading segment of `l`, return the rest of `l` after it. -/
def stripLeadingMatch : List Char → List Char → Option (List Char)
  | [], l => some l
  | _ :: _, [] => none
  | p :: ps, c :: cs => if p = c then stripLeadingMatch ps cs else none

/-- Substring test on character lists: does `p` occur inside `l`? -/
def listContainsB (p : List Char) : List Char → Bool
  | [] => (stripLeadingMatch p []).isSome
  | c :: rest => (stripLeadingMatch p (c :: rest)).isSome || listContainsB p rest

/-- Python `sub in s`. -/
def strContains (s sub : String) : Bool :=
  listContainsB sub.data s.data

/-- Remove every left-to-right non-overlapping occurrence of `old` from the
list, with enough fuel to scan the whole list (`old` is nonempty at every
call site, so one unit of fuel per character suffices). -/
def removeAllFuel (old : List Char) : Nat → List Char → List Char
  | 0, l => l
  | _ + 1, [] => []
  | fuel + 1, c :: rest =>
    match stripLeadingMatch old (c :: rest) with
    | some r => removeAllFuel old fuel r
    | none => c :: removeAllFuel old fuel rest

/-- Python `s.replace(old, "")`: delete every occurrence of `old`
(`s.replace("", "")` is the identity, matching Python). -/
def pyRemoveAll (old s : String) : String :=
  if old.data = [] then s
  else String.mk (removeAllFuel old.data s.data.length s.data)

/-- Split a character list on every occurrence of `sep`, keeping empty
fields, as Python `s.split(sep)` does for a one-character separator. -/
def pySplitOn (sep : Char) : List Char → List (List Char)
  | [] => [[]]
  | c :: r =>
    match pySplitOn sep r with
    | [] => [[]]
    | h :: t => if c = sep then [] :: h :: t else (c :: h) :: t

/-! ## Python `int(...)` and `str(...)` -/

/-- Decimal digit value of a character, if it is a digit. -/
def digitVal? (c : Char) : Option Nat :=
  if 48 ≤ c.toNat ∧ c.toNat ≤ 57 then some (c.toNat - 48) else none

/-- Value of a nonempty all-digit character list, read in base 10. -/
def digitsToNat (l : List Char) : Option Nat :=
  if l ≠ [] ∧ l.all (fun c => (digitVal? c).isSome) then
    some (l.foldl (fun a c => a * 10 + (c.toNat - 48)) 0)
  else none

/-- Python `int(s)` on a string: strip whitespace, allow one sign, then a
nonempty run of decimal digits (digit-grouping underscores, which no id in
this system ever contains, are not modelled). -/
def pyInt? (s : String) : Option Int :=
  match stripChars s.data with
  | '-' :: r => (digitsToNat r).map (fun n => -(n : Int))
  | '+' :: r => (digitsToNat r).map (fun n => (n : Int))
  | r => (digitsToNat r).map (fun n => (n : Int))

/-- Decimal digits of a natural number, most significant first. -/
def natDigits (n : Nat) : List Char :=
  if h : n < 10 then [Char.ofNat (48 + n)]
  else natDigits (n / 10) ++ [Char.ofNat (48 + n % 10)]
termination_by n
decreasing_by
  exact Nat.div_lt_self (by omega) (by omega)

/-- Python `str(n)` for a natural number. -/
def natToStr (n : Nat) : String :=
  String.mk (natDigits n)

/-- Python `str(i)` for an integer. -/
def intToStr (i : Int) : String :=
  if i < 0 then String.mk ('-' :: natDigits i.natAbs) else natToStr i.toNat

/-- Python `max(list)` folded over a list of integers (`none` on `[]`,
where Python would raise). -/
def listMax (l : List Int) : Option Int :=
  l.foldl (fun acc x =>
    match acc with
    | none => some x
    | some m => some (max m x)) none

/-! ## `base64.b64decode` -/

/-- Value of a standard base64 alphabet character. -/
def b64Val? (c : Char) : Option Nat :=
  if 65 ≤ c.toNat ∧ c.toNat ≤ 90 then some (c.toNat - 65)
  else if 97 ≤ c.toNat ∧ c.toNat ≤ 122 then some (c.toNat - 97 + 26)
  else if 48 ≤ c.toNat ∧ c.toNat ≤ 57 then some (c.toNat - 48 + 52)
  else if c = '+' then some 62
  else if c = '/' then some 63
  else none

/-- Reassemble bytes from base64 sextets; a final group of 2 or 3 sextets
corresponds to `==` / `=` padding, a dangling single sextet is invalid. -/
def sextetsToBytes : List Nat → Option (List Nat)
  | [] => some []
  | a :: b :: c :: d :: rest =>
    (sextetsToBytes rest).map
      (fun t => (a * 4 + b / 16) :: ((b % 16) * 16 + c / 4) :: ((c % 4) * 64 + d) :: t)
  | [a, b] => some [a * 4 + b / 16]
  | [a, b, c] => some [a * 4 + b / 16, (b % 16) * 16 + c / 4]
  | [_] => none

/-- Python `base64.b64decode(s)` with the default `validate=False`:
characters outside the alphabet and `=` are discarded, then the payload
(with its `=` padding) must have length a multiple of 4. Data after the
padding, which never occurs in this system, is not modelled. -/
def pyB64decode (l : List Char) : Option (List Nat) :=
  let filtered := l.filter (fun c => (b64Val? c).isSome || c = '=')
  let dataC := filtered.takeWhile (fun c => c ≠ '=')
  let padC := filtered.dropWhile (fun c => c ≠ '=')
  if padC.all (fun c => c = '=') ∧ padC.length ≤ 2 ∧
      (dataC.length + padC.length) % 4 = 0 then
    sextetsToBytes (dataC.filterMap b64Val?)
  else none

/-! ## Data model -/

/-- A row of the `workers` table. -/
structure Worker where
  worker_id : String
  name : String
deriving DecidableEq, Repr

/-- The payload passed to `supabase.table("attendance").insert({...})`
(the `worker_id` comes straight from the JSON body, so it can be null). -/
structure InsertRow where
  worker_id : Option String
  attendance_status : String
  ppe_status : String
  ppe_missing_items : String
  ppe_image_url : Option String
  date : String
deriving DecidableEq, Repr

/-- A persisted row of the `attendance` table: the inserted payload plus
the `created_at` timestamp assigned by the storage layer. -/
structure AttendanceRow where
  row : InsertRow
  created_at : Nat
deriving DecidableEq, Repr

/-- External-effect events a handler performs, in order: an object-storage
upload, the Gemini call, an object-storage remove, a successful attendance
insert. A failed insert raises before any row is persisted, so it
contributes no event. -/
inductive Event where
  | upload (key : String) (bytes : List Nat)
  | gemini
  | removeObj (key : String)
  | insert (r : InsertRow)
deriving DecidableEq, Repr

/-- Whether an event is an attendance insert. -/
def Event.isInsert : Event → Bool
  | .insert _ => true
  | _ => false

/-- The JSON response of a handler, together with the HTTP status code
(200 unless the handler says otherwise). Absent JSON keys are `none`. -/
structure Resp where
  httpCode : Nat := 200
  status : Option String := none
  message : Option String := none
  worker_name : Option String := none
  missing : Option String := none
  error : Option String := none
  worker_id : Option String := none
deriving DecidableEq, Repr

/-- Python truthiness of `data.get(k)` for a string field: false for an
absent key (`None`) and for the empty string. -/
def pyTruthy : Option String → Bool
  | none => false
  | some s => s ≠ ""

/-- Python `str(...)` as used in the f-string building the object key:
`None` renders as the text `None`. -/
def pyOptStr : Option String → String
  | none => "None"
  | some s => s

/-! ## Image codec helper -/

/-- Lines 80-81: `raw_b64 = image_data.split(",")[1]` followed by
`base64.b64decode(raw_b64)`. `none` models the exception (IndexError when
there is no comma, binascii.Error when the field is not valid base64). -/
def decodeImage (s : String) : Option (List Nat) :=
  match (pySplitOn ',' s.data).get? 1 with
  | none => none
  | some payload => pyB64decode payload

/-- Modelled from the spec: the Image Codec Helper is specified to
"split on the first comma, decode the remainder as base64 into raw
bytes". Everything after the first comma is the payload. -/
def decodeImageSpec (s : String) : Option (List Nat) :=
  match pySplitOn ',' s.data with
  | [] => none
  | [_] => none
  | _ :: rest => pyB64decode (String.intercalate (",") (rest.map String.mk)).data

/-! ## Vision verification client -/

/-- Lines 54-68. The Gemini call is an oracle: `.error` models any raised
exception, `.ok t` a successful call whose `response.text` is `t`
(`none` when the text attribute is `None`, which `or ""` replaces). -/
def verify_ppe_with_gemini (call : Except Unit (Option String)) : String :=
  match call with
  | .error _ => "ERROR_GEMINI"
  | .ok t => pyUpper (pyStrip (t.getD ("")))

/-! ## `/verify` -/

/-- Name shown to the worker: lines 103-106, the lookup of the `workers`
row falling back to the generic label. A null `worker_id` matches no row. -/
def lookupName (worker_id : Option String) (ws : List Worker) : String :=
  match worker_id.bind (fun w => ws.find? (fun wk => wk.worker_id = w)) with
  | some wk => wk.name
  | none => "Worker"

/-- Generic `except Exception` response of `/verify`, `/precheck` and
`/manual-upload`: `{"status": "ERROR", "message": str(e)}, 500`. -/
def excResp : Resp :=
  { httpCode := 500, status := some ("ERROR"), message := some ("exception") }

/-- Lines 88-108 of `/verify`: classification of the (already upper-cased,
stripped) reply `a` and the resulting insert and response. `insertOk`
tells whether the attendance insert succeeds; the worker-name read is
assumed to succeed. -/
def verifyCore (worker_id : Option String) (a : String) (today : String)
    (insertOk : Bool) (ws : List Worker) : List Event × Resp :=
  if strContains a ("NO_WORKER") then
    ([], { status := some ("RETRY"), message := some ("Worker not detected") })
  else
    let status := if strContains a ("PPE_OK") then ("PRESENT") else ("ABSENT")
    let missing :=
      if status = "ABSENT" then pyStrip (pyRemoveAll ("PPE_MISSING:") a) else ("")
    let row : InsertRow :=
      { worker_id := worker_id, attendance_status := status,
        ppe_status := if status = "PRESENT" then ("PASSED") else ("FAILED"),
        ppe_missing_items := missing, ppe_image_url := none, date := today }
    if insertOk then
      ([Event.insert row],
       { status := some status, worker_name := some (lookupName worker_id ws),
         missing := some missing })
    else ([], excResp)

/-- Lines 73-111, the `/verify` handler. `image = none` models an absent
`image` key (`None.split` raises before any external call); the upload,
Gemini call and remove are assumed not to raise (the claims under study
only inject failures into the insert). -/
def verify (worker_id image : Option String) (uuidStr today : String)
    (gem : Except Unit (Option String)) (insertOk : Bool)
    (ws : List Worker) : List Event × Resp :=
  match image with
  | none => ([], excResp)
  | some img =>
    match decodeImage img with
    | none => ([], excResp)
    | some bytes =>
      let file_name := "auto_" ++ pyOptStr worker_id ++ "_" ++ uuidStr ++ ".jpg"
      let a := verify_ppe_with_gemini gem
      let res := verifyCore worker_id a today insertOk ws
      ([Event.upload file_name bytes, Event.gemini, Event.removeObj file_name]
        ++ res.1, res.2)

/-! ## `/manual-upload` -/

/-- Lines 113-138. The remove of the uploaded object sits AFTER the
insert inside the `try`, so a failed insert raises past it. -/
def manual_upload (worker_id image : Option String) (uuidStr today : String)
    (insertOk : Bool) : List Event × Resp :=
  match image with
  | none => ([], excResp)
  | some img =>
    match decodeImage img with
    | none => ([], excResp)
    | some bytes =>
      let file_name := "manual_" ++ pyOptStr worker_id ++ "_" ++ uuidStr ++ ".jpg"
      let row : InsertRow :=
        { worker_id := worker_id, attendance_status := "PRESENT",
          ppe_status := "MANUAL_VERIFIED",
          ppe_missing_items := "Manual Override Confirmed",
          ppe_image_url := none, date := today }
      if insertOk then
        ([Event.upload file_name bytes, Event.insert row,
          Event.removeObj file_name],
         { status := some ("SUCCESS") })
      else
        ([Event.upload file_name bytes],
         excResp)

/-! ## `/api/manual-mark` -/

/-- Lines 145-163. `status` and `date` take Python `.get` defaults; no
validation and no worker lookup happen at all. The error shape is
`{"error": str(e)}, 500`. -/
def manual_mark (worker_id statusArg dateArg : Option String)
    (today : String) (insertOk : Bool) : List Event × Resp :=
  let status := statusArg.getD ("PRESENT")
  let date := dateArg.getD today
  let row : InsertRow :=
    { worker_id := worker_id, attendance_status := status,
      ppe_status := "ADMIN_OVERRIDE",
      ppe_missing_items := "Marked " ++ status ++ " by Admin",
      ppe_image_url := none, date := date }
  if insertOk then
    ([Event.insert row], { status := some ("SUCCESS") })
  else
    ([], { httpCode := 500, error := some ("exception") })

/-! ## `/precheck` -/

/-- Lines 40-52. `if not worker_id` catches both an absent key and the
empty string; the read of the `workers` table is assumed to succeed. -/
def precheck (worker_id : Option String) (ws : List Worker) : Resp :=
  if !pyTruthy worker_id then
    { httpCode := 400, status := some ("ERROR"),
      message := some ("Worker ID required") }
  else
    match worker_id.bind (fun w => ws.find? (fun wk => wk.worker_id = w)) with
    | none =>
      { httpCode := 404, status := some ("NOT_FOUND"),
        message := some ("ID not registered") }
    | some wk => { status := some ("SUCCESS"), worker_name := some wk.name }

/-! ## `POST /api/workers` -/

/-- Lines 215-242. Returns the new `workers` table and the response. -/
def add_worker (name : Option String) (ws : List Worker)
    (insertOk : Bool) : List Worker × Resp :=
  if !pyTruthy name then
    (ws, { httpCode := 400, error := some ("Name is required") })
  else
    let ids : List Int := ws.filterMap (fun wk => pyInt? wk.worker_id)
    let next_id : Int :=
      match listMax ids with
      | none => 1001
      | some m => m + 1
    if insertOk then
      (ws ++ [{ worker_id := intToStr next_id, name := name.getD ("") }],
       { status := some ("ok"), worker_id := some (intToStr next_id) })
    else
      (ws, { httpCode := 500, error := some ("exception") })

/-! ## `/api/stats` -/

/-- The response of `/api/stats`. -/
structure StatsResp where
  present : Nat
  absent : Nat
  total_workers : Nat
  date : String
deriving DecidableEq, Repr

/-- Python dict update `m[k] = v`: the first binding of an existing key
keeps its position with the new value, a new key is appended. -/
def upsert (m : List (Option String × String)) (k : Option String)
    (v : String) : List (Option String × String) :=
  match m with
  | [] => [(k, v)]
  | (k', v') :: rest =>
    if k' = k then (k', v) :: rest else (k', v') :: upsert rest k v

/-- Python dict lookup `m.get(k)`. -/
def lookupA (m : List (Option String × String)) (k : Option String) :
    Option String :=
  (m.find? (fun p => p.1 = k)).map (fun p => p.2)

/-- Rows of the given date ordered by `created_at` ascending, as the query
`.eq("date", target).order("created_at")` returns them (`mergeSort` is
stable, mirroring a stable ascending index scan). -/
def logsFor (att : List AttendanceRow) (target : String) :
    List AttendanceRow :=
  (att.filter (fun r => r.row.date = target)).mergeSort
    (fun a b => a.created_at ≤ b.created_at)

/-- Lines 174-176: the per-worker latest-status map built by iterating the
ordered rows. -/
def latestMap (logs : List AttendanceRow) : List (Option String × String) :=
  logs.foldl (fun m l => upsert m l.row.worker_id l.row.attendance_status) []

/-- Lines 165-192, the `/api/stats` handler (reads assumed to succeed). -/
def get_stats (dateArg : Option String) (today : String)
    (att : List AttendanceRow) (ws : List Worker) : StatsResp :=
  let target := dateArg.getD today
  let m := latestMap (logsFor att target)
  { present := (m.filter (fun p => p.2 = "PRESENT")).length,
    absent := (m.filter (fun p => p.2 = "ABSENT")).length,
    total_workers := ws.length,
    date := target }

/-! ## Auxiliary definitions used by the statements -/

/-- Modelled from the spec: `ppe_missing_items` is "the reply text with
the `PPE_MISSING:` prefix stripped" and trimmed — a strip of one LEADING
occurrence only, for comparison with the code's `replace`. -/
def specStripMissingTag (a : String) : String :=
  match stripLeadingMatch ("PPE_MISSING:".data) a.data with
  | some r => pyStrip (String.mk r)
  | none => pyStrip a

/-- Whether an event is an object-storage remove. -/
def Event.isRemove : Event → Bool
  | .removeObj _ => true
  | _ => false

/-- Whether an event is an object-storage upload. -/
def Event.isUpload : Event → Bool
  | .upload _ _ => true
  | _ => false

/-- The `workers` table after `n` successive `POST /api/workers`
registrations (distinct nonempty names, every insert succeeding),
starting from an empty registry. -/
def registerN : Nat → List Worker
  | 0 => []
  | n + 1 => (add_worker (some ("W" ++ natToStr n)) (registerN n) true).1

/-- Two attendance rows for worker `W` on date `D`, statuses
`[PRESENT, ABSENT]` in ascending `created_at` order but stored in the
table in the opposite order, so that the `order("created_at")` sort
matters. -/
def c3rows : List AttendanceRow :=
  [⟨{ worker_id := some ("W"), attendance_status := "ABSENT",
      ppe_status := "FAILED", ppe_missing_items := "[VEST]",
      ppe_image_url := none, date := "D" }, 2⟩,
   ⟨{ worker_id := some ("W"), attendance_status := "PRESENT",
      ppe_status := "PASSED", ppe_missing_items := "",
      ppe_image_url := none, date := "D" }, 1⟩]

/-- One attendance row whose latest status is neither PRESENT nor ABSENT
(an admin mark with a custom status). -/
def c3rowsOther : List AttendanceRow :=
  [⟨{ worker_id := some ("W"), attendance_status := "EXCUSED",
      ppe_status := "ADMIN_OVERRIDE", ppe_missing_items := "Marked EXCUSED by Admin",
      ppe_image_url := none, date := "D" }, 1⟩]

/-! ## Helper lemmas: decimal rendering round-trips through `int(...)` -/

theorem natDigits_def (n : Nat) :
    natDigits n = if n < 10 then [Char.ofNat (48 + n)]
      else natDigits (n / 10) ++ [Char.ofNat (48 + n % 10)] := by
  rw [natDigits]
  by_cases h : n < 10 <;> simp [h]

theorem digitChar_props (d : Nat) (hd : d < 10) :
    (digitVal? (Char.ofNat (48 + d))).isSome = true ∧
    isPySpace (Char.ofNat (48 + d)) = false ∧
    Char.ofNat (48 + d) ≠ '-' ∧
    Char.ofNat (48 + d) ≠ '+' ∧
    (Char.ofNat (48 + d)).toNat = 48 + d := by
  interval_cases d <;> exact (by decide)

theorem natDigits_mem (n : Nat) :
    ∀ c ∈ natDigits n, ∃ d, d < 10 ∧ c = Char.ofNat (48 + d) := by
  induction n using Nat.strong_induction_on with
  | _ n ih =>
    intro c hc
    rw [natDigits_def] at hc
    by_cases h : n < 10
    · rw [if_pos h] at hc
      simp only [List.mem_singleton] at hc
      exact ⟨n, h, hc⟩
    · rw [if_neg h] at hc
      rcases List.mem_append.mp hc with h1 | h2
      · exact ih (n / 10) (Nat.div_lt_self (by omega) (by omega)) c h1
      · simp only [List.mem_singleton] at h2
        exact ⟨n % 10, Nat.mod_lt _ (by omega), h2⟩

theorem natDigits_ne_nil (n : Nat) : natDigits n ≠ [] := by
  rw [natDigits_def]
  by_cases h : n < 10
  · simp [h]
  · simp [h]

theorem natDigits_foldl (n : Nat) :
    (natDigits n).foldl (fun a c => a * 10 + (c.toNat - 48)) 0 = n := by
  induction n using Nat.strong_induction_on with
  | _ n ih =>
    rw [natDigits_def]
    by_cases h : n < 10
    · rw [if_pos h]
      simp only [List.foldl_cons, List.foldl_nil]
      rw [(digitChar_props n h).2.2.2.2]
      omega
    · rw [if_neg h, List.foldl_append]
      rw [ih (n / 10) (Nat.div_lt_self (by omega) (by omega))]
      simp only [List.foldl_cons, List.foldl_nil]
      rw [(digitChar_props (n % 10) (Nat.mod_lt _ (by omega))).2.2.2.2]
      omega

theorem dropWhile_no_space (l : List Char)
    (h : ∀ c ∈ l, isPySpace c = false) : l.dropWhile isPySpace = l := by
  cases l with
  | nil => rfl
  | cons a t =>
    rw [List.dropWhile_cons, h a (List.mem_cons_self a t)]
    simp

theorem stripChars_natDigits (n : Nat) :
    stripChars (natDigits n) = natDigits n := by
  have hns : ∀ c ∈ natDigits n, isPySpace c = false := by
    intro c hc
    obtain ⟨d, hd, rfl⟩ := natDigits_mem n c hc
    exact (digitChar_props d hd).2.1
  unfold stripChars
  rw [dropWhile_no_space _ hns,
    dropWhile_no_space _ (fun c hc => hns c (List.mem_reverse.mp hc)),
    List.reverse_reverse]

theorem digitsToNat_natDigits (n : Nat) :
    digitsToNat (natDigits n) = some n := by
  unfold digitsToNat
  rw [if_pos]
  · rw [natDigits_foldl]
  · refine ⟨natDigits_ne_nil n, ?_⟩
    rw [List.all_eq_true]
    intro c hc
    obtain ⟨d, hd, rfl⟩ := natDigits_mem n c hc
    exact (digitChar_props d hd).1

theorem pyInt?_natToStr (n : Nat) : pyInt? (natToStr n) = some ((n : Nat) : Int) := by
  unfold pyInt? natToStr
  rw [show (String.mk (natDigits n)).data = natDigits n from rfl, stripChars_natDigits]
  rcases hnd : natDigits n with _ | ⟨c, t⟩
  · exact absurd hnd (natDigits_ne_nil n)
  · have hc : ∃ d, d < 10 ∧ c = Char.ofNat (48 + d) :=
      natDigits_mem n c (hnd ▸ List.mem_cons_self c t)
    obtain ⟨d, hd, rfl⟩ := hc
    have hminus := (digitChar_props d hd).2.2.1
    have hplus := (digitChar_props d hd).2.2.2.1
    split
    · rename_i r heq
      exact absurd (List.cons.injEq _ _ _ _ ▸ heq :
        Char.ofNat (48 + d) = '-' ∧ t = r).1 hminus
    · rename_i r heq
      exact absurd (List.cons.injEq _ _ _ _ ▸ heq :
        Char.ofNat (48 + d) = '+' ∧ t = r).1 hplus
    · rw [← hnd, digitsToNat_natDigits]
      rfl

/-! ## Helper lemmas: sequential id assignment -/

theorem intToStr_natCast (m : Nat) : intToStr ((m : Nat) : Int) = natToStr m := by
  unfold intToStr
  rw [if_neg (by simp)]
  rw [Int.toNat_natCast]

theorem listMax_append_one (l : List Int) (x : Int) :
    listMax (l ++ [x]) =
      match listMax l with | none => some x | some m => some (max m x) := by
  unfold listMax
  rw [List.foldl_append]
  rfl

theorem listMax_reg_range (n : Nat) :
    listMax ((List.range n).map (fun i => ((1001 + i : Nat) : Int))) =
      if n = 0 then none else some ((1000 + n : Nat) : Int) := by
  induction n with
  | zero => rfl
  | succ n ih =>
    rw [List.range_succ, List.map_append, List.map_singleton, listMax_append_one, ih]
    by_cases h : n = 0
    · subst h
      simp
    · rw [if_neg h, if_neg (by omega)]
      show some (max ((1000 + n : Nat) : Int) ((1001 + n : Nat) : Int)) =
        some ((1000 + (n + 1) : Nat) : Int)
      have hle : ((1000 + n : Nat) : Int) ≤ ((1001 + n : Nat) : Int) := by
        push_cast
        omega
      rw [max_eq_right hle]
      congr 1
      push_cast
      omega

theorem filterMap_pyInt_natToStr (l : List Nat) :
    (l.map (fun i => natToStr (1001 + i))).filterMap pyInt? =
      l.map (fun i => ((1001 + i : Nat) : Int)) := by
  induction l with
  | nil => rfl
  | cons a t ih =>
    simp only [List.map_cons, List.filterMap_cons, pyInt?_natToStr, ih]

theorem str_cons_ne_empty (t : String) : ("W" ++ t) ≠ "" := by
  intro h
  have hd := congrArg String.data h
  rw [String.data_append] at hd
  exact List.cons_ne_nil _ _ hd

theorem registerN_ids (n : Nat) :
    (registerN n).map (fun wk => wk.worker_id) =
      (List.range n).map (fun i => natToStr (1001 + i)) := by
  induction n with
  | zero => rfl
  | succ n ih =>
    show ((add_worker (some ("W" ++ natToStr n)) (registerN n) true).1).map
        (fun wk => wk.worker_id) = _
    have hname : pyTruthy (some ("W" ++ natToStr n)) = true := by
      simp only [pyTruthy]
      exact decide_eq_true (str_cons_ne_empty (natToStr n))
    unfold add_worker
    rw [hname]
    simp only [Bool.not_true, Bool.false_eq_true, if_false, if_true]
    have hids : (registerN n).filterMap (fun wk => pyInt? wk.worker_id) =
        (List.range n).map (fun i => ((1001 + i : Nat) : Int)) := by
      have h1 : (registerN n).filterMap (fun wk => pyInt? wk.worker_id) =
          ((registerN n).map (fun wk => wk.worker_id)).filterMap pyInt? := by
        rw [List.filterMap_map]
        rfl
      rw [h1, ih, filterMap_pyInt_natToStr]
    rw [hids, listMax_reg_range]
    have hnext : (match (if n = 0 then none else some ((1000 + n : Nat) : Int)) with
        | none => (1001 : Int) | some m => m + 1) = ((1001 + n : Nat) : Int) := by
      by_cases h : n = 0
      · subst h
        simp
      · rw [if_neg h]
        show ((1000 + n : Nat) : Int) + 1 = ((1001 + n : Nat) : Int)
        push_cast
        omega
    rw [hnext, List.map_append, ih, intToStr_natCast, List.range_succ,
      List.map_append]
    rfl

/-! ## Helper lemmas: latest-wins aggregation -/

theorem lookupA_upsert (m : List (Option String × String))
    (k w : Option String) (v : String) :
    lookupA (upsert m k v) w = if k = w then some v else lookupA m w := by
  induction m with
  | nil =>
    by_cases hkw : k = w
    · simp [upsert, lookupA, List.find?, hkw]
    · simp [upsert, lookupA, List.find?, hkw,
        show (decide (k = w)) = false from decide_eq_false hkw]
  | cons p rest ih =>
    obtain ⟨k', v'⟩ := p
    by_cases hk : k' = k
    · subst hk
      by_cases hkw : k' = w
      · simp [upsert, lookupA, List.find?, hkw]
      · simp [upsert, lookupA, List.find?, hkw,
          show (decide (k' = w)) = false from decide_eq_false hkw]
    · by_cases hw : k' = w
      · subst hw
        rw [upsert, if_neg hk]
        rw [if_neg (fun h => hk (by rw [h]) : ¬k = k')]
        simp [lookupA, List.find?]
      · rw [upsert, if_neg hk]
        have h1 : lookupA ((k', v') :: upsert rest k v) w =
            lookupA (upsert rest k v) w := by
          simp [lookupA, List.find?, show (decide (k' = w)) = false from decide_eq_false hw]
        have h2 : lookupA ((k', v') :: rest) w = lookupA rest w := by
          simp [lookupA, List.find?, show (decide (k' = w)) = false from decide_eq_false hw]
        rw [h1, h2, ih]

theorem lookupA_foldl_upsert (logs : List AttendanceRow)
    (m : List (Option String × String)) (w : Option String) :
    lookupA (logs.foldl (fun m l => upsert m l.row.worker_id l.row.attendance_status) m) w =
      match (logs.filter (fun r => r.row.worker_id = w)).getLast? with
      | some r => some r.row.attendance_status
      | none => lookupA m w := by
  induction logs generalizing m with
  | nil => rfl
  | cons l rest ih =>
    rw [List.foldl_cons, ih]
    by_cases hw : l.row.worker_id = w
    · rw [List.filter_cons_of_pos (by simpa using hw)]
      rcases hfe : rest.filter (fun r => r.row.worker_id = w) with _ | ⟨y, t⟩
      · rw [hfe]
        rw [show ([] : List AttendanceRow).getLast? = none from rfl]
        rw [lookupA_upsert, if_pos hw]
        rfl
      · rw [hfe, List.getLast?_cons_cons]
        rcases hrest : (y :: t).getLast? with _ | r
        · exact absurd (List.getLast?_eq_none_iff.mp hrest) (List.cons_ne_nil y t)
        · rfl
    · rw [List.filter_cons_of_neg (by simpa using hw)]
      rcases hrest : (rest.filter (fun r => r.row.worker_id = w)).getLast? with _ | r
      · rw [hrest, lookupA_upsert, if_neg hw]
      · rw [hrest]

theorem lookupA_latestMap (logs : List AttendanceRow) (w : Option String) :
    lookupA (latestMap logs) w =
      ((logs.filter (fun r => r.row.worker_id = w)).getLast?).map
        (fun r => r.row.attendance_status) := by
  rw [latestMap, lookupA_foldl_upsert]
  rcases h : (logs.filter (fun r => r.row.worker_id = w)).getLast? with _ | r
  · rw [h]
    rfl
  · rw [h]
    rfl

theorem mem_keys_upsert (m : List (Option String × String))
    (k x : Option String) (v : String) :
    x ∈ (upsert m k v).map Prod.fst ↔ x ∈ m.map Prod.fst ∨ x = k := by
  induction m with
  | nil => simp [upsert]
  | cons p rest ih =>
    obtain ⟨k', v'⟩ := p
    by_cases hk : k' = k
    · subst hk
      rw [upsert, if_pos rfl]
      simp only [List.map_cons, List.mem_cons]
      tauto
    · rw [upsert, if_neg hk]
      simp only [List.map_cons, List.mem_cons, ih]
      tauto

theorem nodup_keys_upsert (m : List (Option String × String))
    (k : Option String) (v : String)
    (h : (m.map Prod.fst).Nodup) : ((upsert m k v).map Prod.fst).Nodup := by
  induction m with
  | nil => simp [upsert]
  | cons p rest ih =>
    obtain ⟨k', v'⟩ := p
    rw [List.map_cons, List.nodup_cons] at h
    by_cases hk : k' = k
    · subst hk
      rw [upsert, if_pos rfl, List.map_cons, List.nodup_cons]
      exact h
    · rw [upsert, if_neg hk, List.map_cons, List.nodup_cons]
      constructor
      · intro hmem
        rcases (mem_keys_upsert rest k k' v).mp hmem with hin | heq
        · exact h.1 hin
        · exact hk heq
      · exact ih h.2

theorem nodup_keys_latestMap (logs : List AttendanceRow) :
    ((latestMap logs).map Prod.fst).Nodup := by
  rw [latestMap]
  have hgen : ∀ (l : List AttendanceRow) (m : List (Option String × String)),
      (m.map Prod.fst).Nodup →
      ((l.foldl (fun m r => upsert m r.row.worker_id r.row.attendance_status) m).map
        Prod.fst).Nodup := by
    intro l
    induction l with
    | nil => intro m hm; exact hm
    | cons a t ih =>
      intro m hm
      rw [List.foldl_cons]
      exact ih _ (nodup_keys_upsert m _ _ hm)
  exact hgen logs [] (by simp)

theorem pairwise_le_getLast (l : List AttendanceRow)
    (hp : l.Pairwise (fun a b => a.created_at ≤ b.created_at)) :
    ∀ x ∈ l, ∀ y, l.getLast? = some y → x.created_at ≤ y.created_at := by
  induction l with
  | nil => intro x hx; exact absurd hx (List.not_mem_nil x)
  | cons a t ih =>
    intro x hx y hy
    rw [List.pairwise_cons] at hp
    cases t with
    | nil =>
      simp only [List.mem_singleton] at hx
      simp only [List.getLast?_singleton, Option.some.injEq] at hy
      subst hx
      subst hy
      exact Nat.le_refl _
    | cons b t2 =>
      rw [List.getLast?_cons_cons] at hy
      rcases List.mem_cons.mp hx with rfl | hxt
      · have hym : y ∈ b :: t2 := by
          rcases List.mem_getLast?_eq_getLast hy with ⟨hne, rfl⟩
          exact List.getLast_mem hne
        exact hp.1 y hym
      · exact ih hp.2 x hxt y hy

theorem logsFor_pairwise (att : List AttendanceRow) (target : String) :
    (logsFor att target).Pairwise (fun a b => a.created_at ≤ b.created_at) := by
  have h := @List.sorted_mergeSort AttendanceRow
    (fun a b : AttendanceRow => decide (a.created_at ≤ b.created_at))
    (by intro a b c hab hbc; simp only [decide_eq_true_eq] at *; omega)
    (by intro a b; simp only [Bool.or_eq_true, decide_eq_true_eq]; omega)
    (att.filter (fun r => r.row.date = target))
  rw [logsFor]
  have hconv : (fun a b : AttendanceRow =>
      (decide (a.created_at ≤ b.created_at)) = true) =
      (fun a b : AttendanceRow => a.created_at ≤ b.created_at) := by
    funext a b
    simp
  exact hconv ▸ h

/-! ## Concrete evaluations used by the claim theorems -/

unseal List.merge List.mergeSort in
theorem get_stats_c3rows (ws : List Worker) :
    get_stats (some ("D")) "D" c3rows ws =
      { present := 0, absent := 1, total_workers := ws.length, date := "D" } := rfl

unseal List.merge List.mergeSort in
theorem get_stats_c3rowsOther (ws : List Worker) :
    get_stats (some ("D")) "D" c3rowsOther ws =
      { present := 0, absent := 0, total_workers := ws.length, date := "D" } := rfl

theorem get_stats_single_present (wid today : String) (t : Nat) (ws : List Worker) :
    get_stats (some today) today
        [⟨{ worker_id := some wid, attendance_status := "PRESENT",
            ppe_status := "PASSED", ppe_missing_items := "",
            ppe_image_url := none, date := today }, t⟩] ws =
      { present := 1, absent := 0, total_workers := ws.length, date := today } := by
  have hlogs : logsFor
      [⟨{ worker_id := some wid, attendance_status := "PRESENT",
          ppe_status := "PASSED", ppe_missing_items := "",
          ppe_image_url := none, date := today }, t⟩] today =
      [⟨{ worker_id := some wid, attendance_status := "PRESENT",
          ppe_status := "PASSED", ppe_missing_items := "",
          ppe_image_url := none, date := today }, t⟩] := by
    rw [logsFor, List.filter_cons_of_pos (by simp), List.filter_nil,
      List.mergeSort_singleton]
  simp only [get_stats, Option.getD_some, hlogs]
  rfl

/-! ## Claim theorems -/

/-- C3: for every date, the daily aggregation takes that date's rows in
ascending `created_at` order and keeps, per worker, only the last row's
status (later rows overwrite earlier ones in the per-worker map, whose
keys are distinct); the counts count workers whose latest status is
exactly PRESENT respectively ABSENT, a worker whose latest status is
neither being excluded from both; in particular a worker with rows
`[PRESENT, ABSENT]` in ascending `created_at` order contributes only to
`absent_count`. -/
theorem get_stats_latest_wins :
    (∀ (att : List AttendanceRow) (target : String) (w : Option String),
      lookupA (latestMap (logsFor att target)) w =
        (((logsFor att target).filter (fun r => r.row.worker_id = w)).getLast?).map
          (fun r => r.row.attendance_status)) ∧
    (∀ (att : List AttendanceRow) (target : String) (w : Option String)
      (x y : AttendanceRow),
      x ∈ (logsFor att target).filter (fun r => r.row.worker_id = w) →
      ((logsFor att target).filter (fun r => r.row.worker_id = w)).getLast? =
        some y →
      x.created_at ≤ y.created_at) ∧
    (∀ (att : List AttendanceRow) (target : String),
      ((latestMap (logsFor att target)).map Prod.fst).Nodup) ∧
    (∀ (ws : List Worker), get_stats (some ("D")) "D" c3rows ws =
      { present := 0, absent := 1, total_workers := ws.length, date := "D" }) ∧
    (∀ (ws : List Worker), get_stats (some ("D")) "D" c3rowsOther ws =
      { present := 0, absent := 0, total_workers := ws.length, date := "D" }) := by
  refine ⟨?_, ?_, ?_, get_stats_c3rows, get_stats_c3rowsOther⟩
  · intro att target w
    exact lookupA_latestMap (logsFor att target) w
  · intro att target w x y hx hy
    have hpw : ((logsFor att target).filter
        (fun r => r.row.worker_id = w)).Pairwise
        (fun a b => a.created_at ≤ b.created_at) :=
      List.Pairwise.sublist (List.filter_sublist _) (logsFor_pairwise att target)
    exact pairwise_le_getLast _ hpw x hx y hy
  · intro att target
    exact nodup_keys_latestMap (logsFor att target)

unseal List.merge List.mergeSort in
/-- Witness for C3 at the concrete two-row example. -/
theorem get_stats_latest_wins_witness :
    lookupA (latestMap (logsFor c3rows ("D"))) (some ("W")) = some ("ABSENT") ∧
    (1 : Nat) ≤ 2 := by
  constructor
  · rw [get_stats_latest_wins.1 c3rows ("D") (some ("W"))]
    rfl
  · have h := get_stats_latest_wins.2.1 c3rows ("D") (some ("W"))
      ⟨{ worker_id := some ("W"), attendance_status := "PRESENT",
         ppe_status := "PASSED", ppe_missing_items := "",
         ppe_image_url := none, date := "D" }, 1⟩
      ⟨{ worker_id := some ("W"), attendance_status := "ABSENT",
         ppe_status := "FAILED", ppe_missing_items := "[VEST]",
         ppe_image_url := none, date := "D" }, 2⟩
      (by decide) (by decide)
    exact h

/-- C9: `/api/stats` returns `total_workers` as the count of all
registered Worker rows, independent of the requested date; for a date
with no attendance rows it returns `present = 0`, `absent = 0` and the
actual registered-worker count. -/
theorem get_stats_total_registered :
    ∀ (dateArg : Option String) (today : String) (att : List AttendanceRow)
      (ws : List Worker),
      (get_stats dateArg today att ws).total_workers = ws.length ∧
      (att.filter (fun r => r.row.date = dateArg.getD today) = [] →
        get_stats dateArg today att ws =
          { present := 0, absent := 0, total_workers := ws.length,
            date := dateArg.getD today }) := by
  intro dateArg today att ws
  constructor
  · rfl
  · intro h
    have hlogs : logsFor att (dateArg.getD today) = [] := by
      rw [logsFor, h, List.mergeSort_nil]
    simp only [get_stats, hlogs]
    rfl

/-- Witness for C9 at a concrete date and registry. -/
theorem get_stats_total_registered_witness :
    get_stats (some ("2026-01-05")) "T" []
        [{ worker_id := "1001", name := "Ann" }] =
      { present := 0, absent := 0, total_workers := 1, date := "2026-01-05" } := by
  exact (get_stats_total_registered (some ("2026-01-05")) "T" []
    [{ worker_id := "1001", name := "Ann" }]).2 rfl


/-- The admin-override row `/api/manual-mark` inserts for a given
`worker_id`, `status` and `date`. -/
def adminRow (wid : Option String) (status date : String) : InsertRow :=
  { worker_id := wid, attendance_status := status,
    ppe_status := "ADMIN_OVERRIDE",
    ppe_missing_items := "Marked " ++ status ++ " by Admin",
    ppe_image_url := none, date := date }

/-- The row the automatic path inserts on a passed check. -/
def passedRow (wid : Option String) (date : String) : InsertRow :=
  { worker_id := wid, attendance_status := "PRESENT",
    ppe_status := "PASSED", ppe_missing_items := "",
    ppe_image_url := none, date := date }

/-- The row the automatic path inserts on a failed check of reply `a`. -/
def failedRow (wid : Option String) (a date : String) : InsertRow :=
  { worker_id := wid, attendance_status := "ABSENT",
    ppe_status := "FAILED",
    ppe_missing_items := pyStrip (pyRemoveAll ("PPE_MISSING:") a),
    ppe_image_url := none, date := date }

/-- The row `/manual-upload` inserts. -/
def manualRow (wid : Option String) (date : String) : InsertRow :=
  { worker_id := wid, attendance_status := "PRESENT",
    ppe_status := "MANUAL_VERIFIED",
    ppe_missing_items := "Manual Override Confirmed",
    ppe_image_url := none, date := date }

/-- C10: neither `/verify` (given a conclusive classifier reply) nor
`/api/manual-mark` ever answers NotFound for an unregistered worker id:
for any worker id the attendance record is inserted and success reported,
`/verify` falling back to the display name Worker; the daily aggregation
then counts that record although `total_workers` does not include the id. -/
theorem unknown_worker_no_not_found :
    ∀ (wid : String) (ws : List Worker) (today : String),
      ws.find? (fun wk => wk.worker_id = wid) = none →
      (∀ a, strContains a ("NO_WORKER") = false →
        (verifyCore (some wid) a today true ws).2.httpCode = 200 ∧
        (verifyCore (some wid) a today true ws).2.worker_name = some ("Worker") ∧
        ∃ r, (verifyCore (some wid) a today true ws).1 = [Event.insert r] ∧
          r.worker_id = some wid) ∧
      (manual_mark (some wid) none none today true =
        ([Event.insert (adminRow (some wid) "PRESENT" today)],
         { status := some ("SUCCESS") })) ∧
      (∀ t : Nat, get_stats (some today) today
          [⟨passedRow (some wid) today, t⟩] ws =
        { present := 1, absent := 0, total_workers := ws.length, date := today }) := by
  intro wid ws today h
  have hname : lookupName (some wid) ws = "Worker" := by
    simp only [lookupName, Option.bind, h]
  refine ⟨?_, ?_, ?_⟩
  · intro a ha
    by_cases hok : strContains a ("PPE_OK")
    · have hvc : verifyCore (some wid) a today true ws =
          ([Event.insert (passedRow (some wid) today)],
           { status := some ("PRESENT"),
             worker_name := some (lookupName (some wid) ws),
             missing := some ("") }) := by
        unfold verifyCore
        simp only [ha, hok, Bool.false_eq_true, if_false, if_true]
        rfl
      rw [hvc, hname]
      exact ⟨rfl, rfl, ⟨_, rfl, rfl⟩⟩
    · have hvc : verifyCore (some wid) a today true ws =
          ([Event.insert (failedRow (some wid) a today)],
           { status := some ("ABSENT"),
             worker_name := some (lookupName (some wid) ws),
             missing := some (pyStrip (pyRemoveAll ("PPE_MISSING:") a)) }) := by
        have hok' : strContains a ("PPE_OK") = false := by
          simpa using hok
        unfold verifyCore
        simp only [ha, hok', Bool.false_eq_true, if_false]
        rfl
      rw [hvc, hname]
      exact ⟨rfl, rfl, ⟨_, rfl, rfl⟩⟩
  · rfl
  · intro t
    exact get_stats_single_present wid today t ws

/-- Witness for C10 at a concrete unregistered id. -/
theorem unknown_worker_no_not_found_witness :
    (verifyCore (some ("9999")) "PPE_OK" "D" true
      [{ worker_id := "1001", name := "Ann" }]).2.worker_name = some ("Worker") ∧
    manual_mark (some ("9999")) none none ("D") true =
      ([Event.insert (adminRow (some ("9999")) "PRESENT" "D")],
       { status := some ("SUCCESS") }) := by
  have h := unknown_worker_no_not_found ("9999")
    [{ worker_id := "1001", name := "Ann" }] "D" (by decide)
  exact ⟨(h.1 ("PPE_OK") (by decide)).2.1, h.2.1⟩

/-- The outcome of lines 88-108 on the ERROR_GEMINI sentinel. -/
theorem verifyCore_error_gemini (wid : Option String) (today : String)
    (ws : List Worker) :
    verifyCore wid ("ERROR_GEMINI") today true ws =
      ([Event.insert (failedRow wid ("ERROR_GEMINI") today)],
       { status := some ("ABSENT"),
         worker_name := some (lookupName wid ws),
         missing := some ("ERROR_GEMINI") }) := by
  unfold verifyCore
  rw [show strContains ("ERROR_GEMINI") ("NO_WORKER") = false from rfl,
    show strContains ("ERROR_GEMINI") ("PPE_OK") = false from rfl]
  simp only [Bool.false_eq_true, if_false]
  rfl

/-- Unfolding of `/verify` once the image decodes, with a failing
classifier call. -/
theorem verify_error_gemini_unfold (wid : Option String)
    (img uuid today : String) (ws : List Worker) (insertOk : Bool)
    (b : List Nat) (hdec : decodeImage img = some b) :
    verify wid (some img) uuid today (Except.error ()) insertOk ws =
      ([Event.upload ("auto_" ++ pyOptStr wid ++ "_" ++ uuid ++ ".jpg") b,
        Event.gemini,
        Event.removeObj ("auto_" ++ pyOptStr wid ++ "_" ++ uuid ++ ".jpg")] ++
          (verifyCore wid ("ERROR_GEMINI") today insertOk ws).1,
       (verifyCore wid ("ERROR_GEMINI") today insertOk ws).2) := by
  show (match decodeImage img with
    | none => ([], excResp)
    | some bytes =>
      let file_name := "auto_" ++ pyOptStr wid ++ "_" ++ uuid ++ ".jpg"
      let a := verify_ppe_with_gemini (Except.error ())
      let res := verifyCore wid a today insertOk ws
      ([Event.upload file_name bytes, Event.gemini, Event.removeObj file_name]
        ++ res.1, res.2)) = _
  rw [hdec]
  rfl

/-- C6: if the external classifier call raises, `verify_ppe_with_gemini`
returns the sentinel ERROR_GEMINI instead of propagating; in the automatic
path this sentinel falls into the otherwise branch, producing a persisted
ABSENT / FAILED record — never PRESENT and never an unhandled
exception. -/
theorem gemini_error_sentinel_absent :
    (verify_ppe_with_gemini (Except.error ()) = "ERROR_GEMINI") ∧
    (∀ (wid : Option String) (today : String) (ws : List Worker),
      verifyCore wid ("ERROR_GEMINI") today true ws =
        ([Event.insert (failedRow wid ("ERROR_GEMINI") today)],
         { status := some ("ABSENT"),
           worker_name := some (lookupName wid ws),
           missing := some ("ERROR_GEMINI") })) ∧
    (∀ (wid : Option String) (img uuid today : String) (ws : List Worker)
      (insertOk : Bool) (b : List Nat), decodeImage img = some b →
      (verify wid (some img) uuid today (Except.error ()) insertOk ws).2.status ≠
        some ("PRESENT") ∧
      (∀ r, Event.insert r ∈
          (verify wid (some img) uuid today (Except.error ()) insertOk ws).1 →
        r.attendance_status = "ABSENT" ∧ r.ppe_status = "FAILED")) := by
  refine ⟨rfl, verifyCore_error_gemini, ?_⟩
  intro wid img uuid today ws insertOk b hdec
  rw [verify_error_gemini_unfold wid img uuid today ws insertOk b hdec]
  cases insertOk with
  | true =>
    rw [verifyCore_error_gemini]
    constructor
    · simp
    · intro r hr
      simp only [List.cons_append, List.nil_append, List.mem_cons,
        List.not_mem_nil, or_false] at hr
      rcases hr with h1 | h1 | h1 | h1
      · exact Event.noConfusion h1
      · exact Event.noConfusion h1
      · exact Event.noConfusion h1
      · rw [Event.insert.injEq] at h1
        rw [h1]
        exact ⟨rfl, rfl⟩
  | false =>
    have h1 : (verifyCore wid ("ERROR_GEMINI") today false ws).1 = [] := rfl
    have h2 : (verifyCore wid ("ERROR_GEMINI") today false ws).2 = excResp := rfl
    rw [h1, h2]
    constructor
    · simp [excResp]
    · intro r hr
      simp only [List.append_nil, List.mem_cons, List.not_mem_nil, or_false] at hr
      rcases hr with h | h | h <;> exact Event.noConfusion h

/-- Witness for C6 at a concrete image payload. -/
theorem gemini_error_sentinel_absent_witness :
    (verify (some ("1001")) (some ("d,QUJE")) "u" "D" (Except.error ()) true
      []).2.status ≠ some ("PRESENT") := by
  exact (gemini_error_sentinel_absent.2.2 (some ("1001")) "d,QUJE" "u" "D" []
    true [65, 66, 68] rfl).1

unseal natDigits in
/-- C4: `register(name)` assigns `str(max(parsed ids) + 1)` when at least
one existing worker id parses as an integer (unparsable ids ignored
without error) and `"1001"` when none parse; `N` registrations from an
empty registry yield ids `1001 .. 1000+N`, and from existing ids
`{1001, "abc", 1005}` the next assigned id is `1006`. -/
theorem add_worker_sequential_ids :
    (∀ (ws : List Worker) (nm : String), nm ≠ "" →
      (add_worker (some nm) ws true).2.worker_id =
        some (intToStr
          ((listMax (ws.filterMap (fun wk => pyInt? wk.worker_id))).getD 1000
            + 1))) ∧
    ((add_worker (some ("Ann"))
        [{ worker_id := "1001", name := "A" },
         { worker_id := "abc", name := "B" },
         { worker_id := "1005", name := "C" }] true).2.worker_id =
      some ("1006")) ∧
    (∀ n : Nat, (registerN n).map (fun wk => wk.worker_id) =
      (List.range n).map (fun i => natToStr (1001 + i))) := by
  refine ⟨?_, rfl, registerN_ids⟩
  intro ws nm hnm
  have ht : pyTruthy (some nm) = true := decide_eq_true hnm
  unfold add_worker
  rw [ht]
  show some (intToStr
      (match listMax (ws.filterMap (fun wk => pyInt? wk.worker_id)) with
       | none => (1001 : Int)
       | some m => m + 1)) = _
  rcases hl : listMax (ws.filterMap (fun wk => pyInt? wk.worker_id)) with _ | m
  · rw [hl]
    norm_num
  · rw [hl]
    rfl

unseal natDigits in
/-- Witness for C4 on a registry with a single unparsable id. -/
theorem add_worker_sequential_ids_witness :
    (add_worker (some ("Ann")) [{ worker_id := "abc", name := "B" }]
      true).2.worker_id = some ("1001") := by
  have h := add_worker_sequential_ids.1 [{ worker_id := "abc", name := "B" }]
    "Ann" (by decide)
  rw [h]
  rfl

/-! ## Helper lemmas: handler computation by case -/

theorem verifyCore_no_worker (wid : Option String) (a today : String)
    (insertOk : Bool) (ws : List Worker)
    (h : strContains a ("NO_WORKER") = true) :
    verifyCore wid a today insertOk ws =
      ([], { status := some ("RETRY"),
             message := some ("Worker not detected") }) := by
  unfold verifyCore
  simp only [h, if_true]

theorem verifyCore_passed (wid : Option String) (a today : String)
    (ws : List Worker) (h : strContains a ("NO_WORKER") = false)
    (hok : strContains a ("PPE_OK") = true) :
    verifyCore wid a today true ws =
      ([Event.insert (passedRow wid today)],
       { status := some ("PRESENT"),
         worker_name := some (lookupName wid ws),
         missing := some ("") }) := by
  unfold verifyCore
  simp only [h, hok, Bool.false_eq_true, if_false, if_true]
  rfl

theorem verifyCore_failed (wid : Option String) (a today : String)
    (ws : List Worker) (h : strContains a ("NO_WORKER") = false)
    (hok : strContains a ("PPE_OK") = false) :
    verifyCore wid a today true ws =
      ([Event.insert (failedRow wid a today)],
       { status := some ("ABSENT"),
         worker_name := some (lookupName wid ws),
         missing := some (pyStrip (pyRemoveAll ("PPE_MISSING:") a)) }) := by
  unfold verifyCore
  simp only [h, hok, Bool.false_eq_true, if_false]
  rfl

theorem verifyCore_insert_fail (wid : Option String) (a today : String)
    (ws : List Worker) (h : strContains a ("NO_WORKER") = false) :
    verifyCore wid a today false ws = ([], excResp) := by
  unfold verifyCore
  simp only [h, Bool.false_eq_true, if_false]

theorem verify_decode_none (wid : Option String) (img uuid today : String)
    (gem : Except Unit (Option String)) (insertOk : Bool) (ws : List Worker)
    (hdec : decodeImage img = none) :
    verify wid (some img) uuid today gem insertOk ws = ([], excResp) := by
  show (match decodeImage img with
    | none => ([], excResp)
    | some bytes =>
      let file_name := "auto_" ++ pyOptStr wid ++ "_" ++ uuid ++ ".jpg"
      let a := verify_ppe_with_gemini gem
      let res := verifyCore wid a today insertOk ws
      ([Event.upload file_name bytes, Event.gemini, Event.removeObj file_name]
        ++ res.1, res.2)) = _
  rw [hdec]

theorem verify_decode_some (wid : Option String) (img uuid today : String)
    (gem : Except Unit (Option String)) (insertOk : Bool) (ws : List Worker)
    (b : List Nat) (hdec : decodeImage img = some b) :
    verify wid (some img) uuid today gem insertOk ws =
      ([Event.upload ("auto_" ++ pyOptStr wid ++ "_" ++ uuid ++ ".jpg") b,
        Event.gemini,
        Event.removeObj ("auto_" ++ pyOptStr wid ++ "_" ++ uuid ++ ".jpg")] ++
          (verifyCore wid (verify_ppe_with_gemini gem) today insertOk ws).1,
       (verifyCore wid (verify_ppe_with_gemini gem) today insertOk ws).2) := by
  show (match decodeImage img with
    | none => ([], excResp)
    | some bytes =>
      let file_name := "auto_" ++ pyOptStr wid ++ "_" ++ uuid ++ ".jpg"
      let a := verify_ppe_with_gemini gem
      let res := verifyCore wid a today insertOk ws
      ([Event.upload file_name bytes, Event.gemini, Event.removeObj file_name]
        ++ res.1, res.2)) = _
  rw [hdec]

theorem manual_upload_decode_none (wid : Option String)
    (img uuid today : String) (insertOk : Bool)
    (hdec : decodeImage img = none) :
    manual_upload wid (some img) uuid today insertOk = ([], excResp) := by
  show (match decodeImage img with
    | none => ([], excResp)
    | some bytes =>
      let file_name := "manual_" ++ pyOptStr wid ++ "_" ++ uuid ++ ".jpg"
      let row : InsertRow :=
        { worker_id := wid, attendance_status := "PRESENT",
          ppe_status := "MANUAL_VERIFIED",
          ppe_missing_items := "Manual Override Confirmed",
          ppe_image_url := none, date := today }
      if insertOk then
        ([Event.upload file_name bytes, Event.insert row,
          Event.removeObj file_name],
         { status := some ("SUCCESS") })
      else ([Event.upload file_name bytes], excResp)) = _
  rw [hdec]

theorem manual_upload_decode_some (wid : Option String)
    (img uuid today : String) (insertOk : Bool) (b : List Nat)
    (hdec : decodeImage img = some b) :
    manual_upload wid (some img) uuid today insertOk =
      (if insertOk then
        ([Event.upload ("manual_" ++ pyOptStr wid ++ "_" ++ uuid ++ ".jpg") b,
          Event.insert (manualRow wid today),
          Event.removeObj ("manual_" ++ pyOptStr wid ++ "_" ++ uuid ++ ".jpg")],
         { status := some ("SUCCESS") })
      else
        ([Event.upload ("manual_" ++ pyOptStr wid ++ "_" ++ uuid ++ ".jpg") b],
         excResp)) := by
  show (match decodeImage img with
    | none => ([], excResp)
    | some bytes =>
      let file_name := "manual_" ++ pyOptStr wid ++ "_" ++ uuid ++ ".jpg"
      let row : InsertRow :=
        { worker_id := wid, attendance_status := "PRESENT",
          ppe_status := "MANUAL_VERIFIED",
          ppe_missing_items := "Manual Override Confirmed",
          ppe_image_url := none, date := today }
      if insertOk then
        ([Event.upload file_name bytes, Event.insert row,
          Event.removeObj file_name],
         { status := some ("SUCCESS") })
      else ([Event.upload file_name bytes], excResp)) = _
  rw [hdec]
  rfl

theorem manual_mark_unfold (wid statusArg dateArg : Option String)
    (today : String) (insertOk : Bool) :
    manual_mark wid statusArg dateArg today insertOk =
      (if insertOk then
        ([Event.insert (adminRow wid (statusArg.getD ("PRESENT"))
            (dateArg.getD today))],
         { status := some ("SUCCESS") })
      else ([], { httpCode := 500, error := some ("exception") })) := by
  unfold manual_mark
  cases insertOk with
  | true => rfl
  | false => rfl

/-- C1 counterexample: on the classifier reply
`HELMET PPE_MISSING: [VEST]`, whose tag occurrence is not a leading
prefix, the code (Python `replace`, which deletes every occurrence
anywhere) persists `HELMET  [VEST]`, while the claim's
prefix-strip-and-trim leaves the reply unchanged — so the claimed record
content is wrong for this reply. -/
theorem verify_missing_items_replace_cex :
    (verifyCore (some ("1001")) "HELMET PPE_MISSING: [VEST]" "D" true []).1 =
      [Event.insert
        (failedRow (some ("1001")) "HELMET PPE_MISSING: [VEST]" "D")] ∧
    (failedRow (some ("1001")) "HELMET PPE_MISSING: [VEST]"
      "D").ppe_missing_items = "HELMET  [VEST]" ∧
    specStripMissingTag ("HELMET PPE_MISSING: [VEST]") =
      "HELMET PPE_MISSING: [VEST]" ∧
    ("HELMET  [VEST]" : String) ≠ "HELMET PPE_MISSING: [VEST]" := by
  exact ⟨rfl, rfl, rfl, by decide⟩

/-- C1 (amended): for every classifier reply in the automatic path: a
reply containing NO_WORKER gives RETRY and writes nothing; otherwise a
reply containing PPE_OK writes exactly one PRESENT / PASSED record with
empty `ppe_missing_items`; otherwise exactly one ABSENT / FAILED record is
written whose `ppe_missing_items` is the reply with EVERY occurrence of
the substring `PPE_MISSING:` removed (not merely a leading prefix
stripped) and the result trimmed. -/
theorem verify_reply_classification :
    ∀ (wid : Option String) (a today : String) (ws : List Worker),
      (strContains a ("NO_WORKER") = true →
        verifyCore wid a today true ws =
          ([], { status := some ("RETRY"),
                 message := some ("Worker not detected") })) ∧
      (strContains a ("NO_WORKER") = false →
        strContains a ("PPE_OK") = true →
        verifyCore wid a today true ws =
          ([Event.insert (passedRow wid today)],
           { status := some ("PRESENT"),
             worker_name := some (lookupName wid ws),
             missing := some ("") })) ∧
      (strContains a ("NO_WORKER") = false →
        strContains a ("PPE_OK") = false →
        verifyCore wid a today true ws =
          ([Event.insert (failedRow wid a today)],
           { status := some ("ABSENT"),
             worker_name := some (lookupName wid ws),
             missing := some (pyStrip (pyRemoveAll ("PPE_MISSING:") a)) })) := by
  intro wid a today ws
  exact ⟨verifyCore_no_worker wid a today true ws,
    verifyCore_passed wid a today ws,
    verifyCore_failed wid a today ws⟩

/-- Witness for C1 (amended) on the reply `PPE_MISSING: [VEST]`. -/
theorem verify_reply_classification_witness :
    verifyCore (some ("1001")) "PPE_MISSING: [VEST]" "D" true [] =
      ([Event.insert (failedRow (some ("1001")) "PPE_MISSING: [VEST]" "D")],
       { status := some ("ABSENT"), worker_name := some ("Worker"),
         missing := some ("[VEST]") }) := by
  have h := (verify_reply_classification (some ("1001")) "PPE_MISSING: [VEST]"
    "D" []).2.2 rfl rfl
  rw [h]
  rfl

/-- Any row inserted by lines 88-101 is the passed row or the failed row
for the classified reply. -/
theorem verifyCore_inserts (wid : Option String) (a today : String)
    (insertOk : Bool) (ws : List Worker) (r : InsertRow) :
    Event.insert r ∈ (verifyCore wid a today insertOk ws).1 →
    r = passedRow wid today ∨ r = failedRow wid a today := by
  intro hr
  by_cases hnw : strContains a ("NO_WORKER") = true
  · rw [verifyCore_no_worker wid a today insertOk ws hnw] at hr
    exact absurd hr (List.not_mem_nil _)
  · have hnw' : strContains a ("NO_WORKER") = false := by
      simpa using hnw
    cases insertOk with
    | false =>
      rw [verifyCore_insert_fail wid a today ws hnw'] at hr
      exact absurd hr (List.not_mem_nil _)
    | true =>
      by_cases hok : strContains a ("PPE_OK") = true
      · rw [verifyCore_passed wid a today ws hnw' hok] at hr
        rw [List.mem_singleton, Event.insert.injEq] at hr
        exact Or.inl hr
      · have hok' : strContains a ("PPE_OK") = false := by
          simpa using hok
        rw [verifyCore_failed wid a today ws hnw' hok'] at hr
        rw [List.mem_singleton, Event.insert.injEq] at hr
        exact Or.inr hr

/-- The event trace of lines 88-101 is empty or a single insert. -/
theorem verifyCore_events (wid : Option String) (a today : String)
    (insertOk : Bool) (ws : List Worker) :
    (verifyCore wid a today insertOk ws).1 = [] ∨
    ∃ r, (verifyCore wid a today insertOk ws).1 = [Event.insert r] := by
  by_cases hnw : strContains a ("NO_WORKER") = true
  · rw [verifyCore_no_worker wid a today insertOk ws hnw]
    exact Or.inl rfl
  · have hnw' : strContains a ("NO_WORKER") = false := by
      simpa using hnw
    cases insertOk with
    | false =>
      rw [verifyCore_insert_fail wid a today ws hnw']
      exact Or.inl rfl
    | true =>
      by_cases hok : strContains a ("PPE_OK") = true
      · rw [verifyCore_passed wid a today ws hnw' hok]
        exact Or.inr ⟨_, rfl⟩
      · have hok' : strContains a ("PPE_OK") = false := by
          simpa using hok
        rw [verifyCore_failed wid a today ws hnw' hok']
        exact Or.inr ⟨_, rfl⟩

/-- Any row inserted by `/verify` is the passed or failed row. -/
theorem verify_inserts (wid image : Option String) (uuid today : String)
    (gem : Except Unit (Option String)) (insertOk : Bool) (ws : List Worker)
    (r : InsertRow) :
    Event.insert r ∈ (verify wid image uuid today gem insertOk ws).1 →
    r = passedRow wid today ∨
    r = failedRow wid (verify_ppe_with_gemini gem) today := by
  intro hr
  cases image with
  | none => exact absurd hr (List.not_mem_nil _)
  | some img =>
    cases hdec : decodeImage img with
    | none =>
      rw [verify_decode_none wid img uuid today gem insertOk ws hdec] at hr
      exact absurd hr (List.not_mem_nil _)
    | some b =>
      rw [verify_decode_some wid img uuid today gem insertOk ws b hdec] at hr
      simp only [List.cons_append, List.nil_append, List.mem_cons] at hr
      rcases hr with h | h | h | h
      · exact Event.noConfusion h
      · exact Event.noConfusion h
      · exact Event.noConfusion h
      · exact verifyCore_inserts wid (verify_ppe_with_gemini gem) today
          insertOk ws r h

/-- The text `Marked <status> by Admin` is never empty. -/
theorem marked_text_ne_empty (x : String) :
    ("Marked " ++ x ++ " by Admin") ≠ "" := by
  intro h
  have hd := congrArg String.data h
  rw [String.data_append, String.data_append] at hd
  exact List.cons_ne_nil _ _ hd

/-- C2 counterexample: the manual-upload path persists a record with
`attendance_status = PRESENT` and the non-empty `ppe_missing_items`
text `Manual Override Confirmed`, violating the claimed invariant. -/
theorem present_nonempty_missing_cex :
    (manual_upload (some ("1001")) (some ("d,QUJE")) "u" "D" true).1 =
      [Event.upload ("manual_1001_u.jpg") [65, 66, 68],
       Event.insert (manualRow (some ("1001")) "D"),
       Event.removeObj ("manual_1001_u.jpg")] ∧
    (manualRow (some ("1001")) "D").attendance_status = "PRESENT" ∧
    (manualRow (some ("1001")) "D").ppe_missing_items ≠ "" := by
  exact ⟨rfl, rfl, by decide⟩

/-- C2 (amended): the invariant "`ppe_missing_items` non-empty only when
ABSENT" holds in the automatic verify path only; `/manual-upload` always
persists PRESENT together with the fixed non-empty text
`Manual Override Confirmed`, and `/api/manual-mark` always persists the
non-empty text `Marked <status> by Admin`, whatever the status. -/
theorem missing_items_by_path :
    (∀ (wid image : Option String) (uuid today : String)
      (gem : Except Unit (Option String)) (insertOk : Bool) (ws : List Worker)
      (r : InsertRow),
      Event.insert r ∈ (verify wid image uuid today gem insertOk ws).1 →
      (r.attendance_status = "PRESENT" → r.ppe_missing_items = "") ∧
      (r.ppe_missing_items ≠ "" → r.attendance_status = "ABSENT")) ∧
    (∀ (wid image : Option String) (uuid today : String) (insertOk : Bool)
      (r : InsertRow),
      Event.insert r ∈ (manual_upload wid image uuid today insertOk).1 →
      r.attendance_status = "PRESENT" ∧
      r.ppe_missing_items = "Manual Override Confirmed") ∧
    (∀ (wid statusArg dateArg : Option String) (today : String)
      (insertOk : Bool) (r : InsertRow),
      Event.insert r ∈ (manual_mark wid statusArg dateArg today insertOk).1 →
      r.ppe_missing_items =
        "Marked " ++ statusArg.getD ("PRESENT") ++ " by Admin" ∧
      r.ppe_missing_items ≠ "") := by
  refine ⟨?_, ?_, ?_⟩
  · intro wid image uuid today gem insertOk ws r hr
    rcases verify_inserts wid image uuid today gem insertOk ws r hr with
      rfl | rfl
    · exact ⟨fun _ => rfl, fun hne => absurd rfl hne⟩
    · constructor
      · intro hp
        have hp' : ("ABSENT" : String) = "PRESENT" := hp
        exact absurd hp' (by decide)
      · intro _
        rfl
  · intro wid image uuid today insertOk r hr
    cases image with
    | none => exact absurd hr (List.not_mem_nil _)
    | some img =>
      cases hdec : decodeImage img with
      | none =>
        rw [manual_upload_decode_none wid img uuid today insertOk hdec] at hr
        exact absurd hr (List.not_mem_nil _)
      | some b =>
        rw [manual_upload_decode_some wid img uuid today insertOk b hdec] at hr
        cases insertOk with
        | true =>
          rw [if_pos rfl] at hr
          simp only [List.mem_cons, List.not_mem_nil, or_false] at hr
          rcases hr with h | h | h
          · exact Event.noConfusion h
          · rw [Event.insert.injEq] at h
            rw [h]
            exact ⟨rfl, rfl⟩
          · exact Event.noConfusion h
        | false =>
          rw [if_neg (by simp)] at hr
          simp only [List.mem_singleton] at hr
          exact Event.noConfusion hr
  · intro wid statusArg dateArg today insertOk r hr
    rw [manual_mark_unfold] at hr
    cases insertOk with
    | true =>
      rw [if_pos rfl] at hr
      rw [List.mem_singleton, Event.insert.injEq] at hr
      rw [hr]
      exact ⟨rfl, marked_text_ne_empty _⟩
    | false =>
      rw [if_neg (by simp)] at hr
      exact absurd hr (List.not_mem_nil _)

/-- Witness for C2 (amended) at the concrete manual-upload insert. -/
theorem missing_items_by_path_witness :
    (manualRow (some ("1001")) "D").attendance_status = "PRESENT" ∧
    (manualRow (some ("1001")) "D").ppe_missing_items =
      "Manual Override Confirmed" := by
  exact missing_items_by_path.2.1 (some ("1001")) (some ("d,QUJE")) "u" "D"
    true (manualRow (some ("1001")) "D") (by decide)

/-- C5 counterexample: in the manual-upload path with a failing insert the
request ends with the uploaded object still in storage — no remove event
ever happens, contradicting "deleted regardless of the insert outcome in
the manual path". -/
theorem manual_upload_leak_cex :
    (manual_upload (some ("1001")) (some ("d,QUJE")) "u" "D" false).1 =
      [Event.upload ("manual_1001_u.jpg") [65, 66, 68]] ∧
    (manual_upload (some ("1001")) (some ("d,QUJE")) "u" "D" false).1.filter
      Event.isRemove = [] ∧
    (manual_upload (some ("1001")) (some ("d,QUJE")) "u" "D" false).1.filter
      Event.isUpload ≠ [] := by
  exact ⟨rfl, rfl, by decide⟩

/-- C5 (amended): in the automatic path every uploaded frame is removed
BEFORE any insert, hence regardless of the insert outcome; in the manual
path the remove happens only AFTER a successful insert — a failing insert
leaves the object in storage; and `ppe_image_url` is null in every record
any path persists. -/
theorem image_deletion_by_path :
    (∀ (wid image : Option String) (uuid today : String)
      (gem : Except Unit (Option String)) (insertOk : Bool) (ws : List Worker)
      (k : String) (b : List Nat),
      Event.upload k b ∈ (verify wid image uuid today gem insertOk ws).1 →
      Event.removeObj k ∈
        ((verify wid image uuid today gem insertOk ws).1.takeWhile
          (fun e => !e.isInsert))) ∧
    (∀ (wid image : Option String) (uuid today : String) (k : String)
      (b : List Nat),
      Event.upload k b ∈ (manual_upload wid image uuid today true).1 →
      Event.removeObj k ∈ (manual_upload wid image uuid today true).1 ∧
      Event.removeObj k ∉
        ((manual_upload wid image uuid today true).1.takeWhile
          (fun e => !e.isInsert))) ∧
    (∀ (wid image : Option String) (uuid today : String) (k : String),
      Event.removeObj k ∉ (manual_upload wid image uuid today false).1) ∧
    (∀ (wid image : Option String) (uuid today : String)
      (gem : Except Unit (Option String)) (insertOk : Bool) (ws : List Worker)
      (r : InsertRow),
      (Event.insert r ∈ (verify wid image uuid today gem insertOk ws).1 ∨
       Event.insert r ∈ (manual_upload wid image uuid today insertOk).1) →
      r.ppe_image_url = none) ∧
    (∀ (wid statusArg dateArg : Option String) (today : String)
      (insertOk : Bool) (r : InsertRow),
      Event.insert r ∈ (manual_mark wid statusArg dateArg today insertOk).1 →
      r.ppe_image_url = none) := by
  refine ⟨?_, ?_, ?_, ?_, ?_⟩
  · intro wid image uuid today gem insertOk ws k b hk
    cases image with
    | none => exact absurd hk (List.not_mem_nil _)
    | some img =>
      cases hdec : decodeImage img with
      | none =>
        rw [verify_decode_none wid img uuid today gem insertOk ws hdec] at hk
        exact absurd hk (List.not_mem_nil _)
      | some b2 =>
        rw [verify_decode_some wid img uuid today gem insertOk ws b2 hdec]
          at hk ⊢
        have hkfn : k = "auto_" ++ pyOptStr wid ++ "_" ++ uuid ++ ".jpg" := by
          simp only [List.cons_append, List.nil_append, List.mem_cons] at hk
          rcases hk with h | h | h | h
          · exact ((Event.upload.injEq _ _ _ _).mp h).1
          · exact Event.noConfusion h
          · exact Event.noConfusion h
          · rcases verifyCore_events wid (verify_ppe_with_gemini gem) today
              insertOk ws with he | ⟨r0, he⟩
            · rw [he] at h
              exact absurd h (List.not_mem_nil _)
            · rw [he, List.mem_singleton] at h
              exact Event.noConfusion h
        rw [hkfn]
        show Event.removeObj
            ("auto_" ++ pyOptStr wid ++ "_" ++ uuid ++ ".jpg") ∈
          Event.upload ("auto_" ++ pyOptStr wid ++ "_" ++ uuid ++ ".jpg") b2 ::
          Event.gemini ::
          Event.removeObj ("auto_" ++ pyOptStr wid ++ "_" ++ uuid ++ ".jpg") ::
          List.takeWhile (fun e => !e.isInsert)
            (verifyCore wid (verify_ppe_with_gemini gem) today insertOk ws).1
        exact List.mem_cons_of_mem _
          (List.mem_cons_of_mem _ (List.mem_cons_self _ _))
  · intro wid image uuid today k b hk
    cases image with
    | none => exact absurd hk (List.not_mem_nil _)
    | some img =>
      cases hdec : decodeImage img with
      | none =>
        rw [manual_upload_decode_none wid img uuid today true hdec] at hk
        exact absurd hk (List.not_mem_nil _)
      | some b2 =>
        rw [manual_upload_decode_some wid img uuid today true b2 hdec,
          if_pos rfl] at hk ⊢
        have hkfn : k = "manual_" ++ pyOptStr wid ++ "_" ++ uuid ++ ".jpg" := by
          simp only [List.mem_cons, List.not_mem_nil, or_false] at hk
          rcases hk with h | h | h
          · exact ((Event.upload.injEq _ _ _ _).mp h).1
          · exact Event.noConfusion h
          · exact Event.noConfusion h
        rw [hkfn]
        constructor
        · exact List.mem_cons_of_mem _
            (List.mem_cons_of_mem _ (List.mem_cons_self _ _))
        · intro hcon
          have hcon2 : Event.removeObj
              ("manual_" ++ pyOptStr wid ++ "_" ++ uuid ++ ".jpg") ∈
              [Event.upload
                ("manual_" ++ pyOptStr wid ++ "_" ++ uuid ++ ".jpg") b2] :=
            hcon
          rw [List.mem_singleton] at hcon2
          exact Event.noConfusion hcon2
  · intro wid image uuid today k hk
    cases image with
    | none => exact absurd hk (List.not_mem_nil _)
    | some img =>
      cases hdec : decodeImage img with
      | none =>
        rw [manual_upload_decode_none wid img uuid today false hdec] at hk
        exact absurd hk (List.not_mem_nil _)
      | some b2 =>
        rw [manual_upload_decode_some wid img uuid today false b2 hdec,
          if_neg (by simp)] at hk
        rw [List.mem_singleton] at hk
        exact Event.noConfusion hk
  · intro wid image uuid today gem insertOk ws r hr
    rcases hr with hr | hr
    · rcases verify_inserts wid image uuid today gem insertOk ws r hr with
        rfl | rfl
      · rfl
      · rfl
    · cases image with
      | none => exact absurd hr (List.not_mem_nil _)
      | some img =>
        cases hdec : decodeImage img with
        | none =>
          rw [manual_upload_decode_none wid img uuid today insertOk hdec] at hr
          exact absurd hr (List.not_mem_nil _)
        | some b2 =>
          rw [manual_upload_decode_some wid img uuid today insertOk b2 hdec]
            at hr
          cases insertOk with
          | true =>
            rw [if_pos rfl] at hr
            simp only [List.mem_cons, List.not_mem_nil, or_false] at hr
            rcases hr with h | h | h
            · exact Event.noConfusion h
            · rw [Event.insert.injEq] at h
              rw [h]
              rfl
            · exact Event.noConfusion h
          | false =>
            rw [if_neg (by simp)] at hr
            rw [List.mem_singleton] at hr
            exact Event.noConfusion hr
  · intro wid statusArg dateArg today insertOk r hr
    rw [manual_mark_unfold] at hr
    cases insertOk with
    | true =>
      rw [if_pos rfl] at hr
      rw [List.mem_singleton, Event.insert.injEq] at hr
      rw [hr]
      rfl
    | false =>
      rw [if_neg (by simp)] at hr
      exact absurd hr (List.not_mem_nil _)

/-- Witness for C5 (amended): in the manual path the remove exists after a
successful insert. -/
theorem image_deletion_by_path_witness :
    Event.removeObj ("manual_1001_u.jpg") ∈
      (manual_upload (some ("1001")) (some ("d,QUJE")) "u" "D" true).1 := by
  exact (image_deletion_by_path.2.1 (some ("1001")) (some ("d,QUJE")) "u" "D"
    "manual_1001_u.jpg" [65, 66, 68] (by decide)).1

/-- Splitting a list that does not contain the separator yields the whole
list as its only field. -/
theorem pySplitOn_not_mem (sep : Char) (l : List Char) (h : ¬ sep ∈ l) :
    pySplitOn sep l = [l] := by
  induction l with
  | nil => rfl
  | cons c r ih =>
    have hc : c ≠ sep := fun hc => h (hc ▸ List.mem_cons_self c r)
    have hr : ¬ sep ∈ r := fun hr => h (List.mem_cons_of_mem c hr)
    rw [pySplitOn, ih hr]
    show (if c = sep then [] :: r :: ([] : List (List Char))
      else (c :: r) :: []) = [c :: r]
    rw [if_neg hc]

/-- C7 counterexample: on the input `x,QUJE,Q` — whose payload after the
first comma contains a further comma — the code decodes only the field
between the first two commas and writes a record with HTTP 200, whereas
the claim (decode the ENTIRE remainder `QUJE,Q`, which is not valid
base64: five data characters) requires a generic ERROR with no record
written. -/
theorem decode_second_field_cex :
    decodeImage ("x,QUJE,Q") = some [65, 66, 68] ∧
    decodeImageSpec ("x,QUJE,Q") = none ∧
    (verify (some ("1001")) (some ("x,QUJE,Q")) "u" "D"
        (Except.ok (some ("PPE_OK"))) true []).1 =
      [Event.upload ("auto_1001_u.jpg") [65, 66, 68], Event.gemini,
       Event.removeObj ("auto_1001_u.jpg"),
       Event.insert (passedRow (some ("1001")) "D")] ∧
    (verify (some ("1001")) (some ("x,QUJE,Q")) "u" "D"
        (Except.ok (some ("PPE_OK"))) true []).2.httpCode = 200 := by
  exact ⟨rfl, rfl, rfl, rfl⟩

/-- C7 (amended): the decode splits the input on commas and base64-decodes
the SECOND comma-separated field — the text between the first and second
comma, which is the entire remainder only when that remainder contains no
further comma; when the input has no comma, or that field is not valid
base64, both `/verify` and `/manual-upload` answer the generic 500 ERROR
and perform no external effect, in particular no record is written. -/
theorem decode_second_field :
    (∀ s : String, decodeImage s =
      match (pySplitOn ',' s.data).get? 1 with
      | none => none
      | some payload => pyB64decode payload) ∧
    (∀ s : String, ¬ ',' ∈ s.data → decodeImage s = none) ∧
    (∀ (wid : Option String) (img uuid today : String)
      (gem : Except Unit (Option String)) (insertOk : Bool) (ws : List Worker),
      decodeImage img = none →
      verify wid (some img) uuid today gem insertOk ws = ([], excResp) ∧
      manual_upload wid (some img) uuid today insertOk = ([], excResp) ∧
      excResp.httpCode = 500) := by
  refine ⟨fun s => rfl, ?_, ?_⟩
  · intro s h
    rw [decodeImage, pySplitOn_not_mem ',' s.data h]
    rfl
  · intro wid img uuid today gem insertOk ws hdec
    exact ⟨verify_decode_none wid img uuid today gem insertOk ws hdec,
      manual_upload_decode_none wid img uuid today insertOk hdec, rfl⟩

/-- Witness for C7 (amended) on an input with no comma. -/
theorem decode_second_field_witness :
    verify (some ("1001")) (some ("nocomma")) "u" "D"
        (Except.ok (some ("PPE_OK"))) true [] = ([], excResp) ∧
    decodeImage ("nocomma") = none := by
  constructor
  · exact (decode_second_field.2.2 (some ("1001")) "nocomma" "u" "D"
      (Except.ok (some ("PPE_OK"))) true [] rfl).1
  · exact decode_second_field.2.1 ("nocomma") (by decide)

/-- The classification step answers 200 (RETRY or the outcome) or the
generic 500 — never 400. -/
theorem verifyCore_httpCode (wid : Option String) (a today : String)
    (insertOk : Bool) (ws : List Worker) :
    (verifyCore wid a today insertOk ws).2.httpCode = 200 ∨
    (verifyCore wid a today insertOk ws).2.httpCode = 500 := by
  by_cases hnw : strContains a ("NO_WORKER") = true
  · rw [verifyCore_no_worker wid a today insertOk ws hnw]
    exact Or.inl rfl
  · have hnw' : strContains a ("NO_WORKER") = false := by
      simpa using hnw
    cases insertOk with
    | false =>
      rw [verifyCore_insert_fail wid a today ws hnw']
      exact Or.inr rfl
    | true =>
      by_cases hok : strContains a ("PPE_OK") = true
      · rw [verifyCore_passed wid a today ws hnw' hok]
        exact Or.inl rfl
      · have hok' : strContains a ("PPE_OK") = false := by
          simpa using hok
        rw [verifyCore_failed wid a today ws hnw' hok']
        exact Or.inl rfl

/-- C8 counterexample: `/api/manual-mark` with no `worker_id` field at all
still inserts a record (with a null worker id) and answers success — not
the claimed 400 validation failure with nothing written. -/
theorem no_validation_manual_mark_cex :
    manual_mark none none none ("D") true =
      ([Event.insert (adminRow none ("PRESENT") "D")],
       { status := some ("SUCCESS") }) ∧
    (manual_mark none none none ("D") true).2.httpCode ≠ 400 := by
  exact ⟨rfl, by decide⟩

/-- C8 (amended): only `/precheck` (worker_id) and `POST /api/workers`
(name) validate required fields with HTTP 400 and write nothing;
`/verify` and `/api/manual-mark` perform no such validation —
`/api/manual-mark` with an absent worker_id inserts and reports success,
and `/verify` with an absent worker_id never returns 400: with a valid
image it proceeds through the pipeline (uploading a frame keyed
`auto_None_...`), and with an absent image it answers the generic 500
error. -/
theorem validation_by_endpoint :
    (∀ (wid : Option String) (ws : List Worker), pyTruthy wid = false →
      precheck wid ws =
        { httpCode := 400, status := some ("ERROR"),
          message := some ("Worker ID required") }) ∧
    (∀ (nm : Option String) (ws : List Worker) (insertOk : Bool),
      pyTruthy nm = false →
      add_worker nm ws insertOk =
        (ws, { httpCode := 400, error := some ("Name is required") })) ∧
    (∀ (statusArg dateArg : Option String) (today : String),
      manual_mark none statusArg dateArg today true =
        ([Event.insert (adminRow none (statusArg.getD ("PRESENT"))
            (dateArg.getD today))],
         { status := some ("SUCCESS") })) ∧
    (∀ (uuid today : String) (gem : Except Unit (Option String))
      (insertOk : Bool) (ws : List Worker) (img : String) (b : List Nat),
      decodeImage img = some b →
      (verify none (some img) uuid today gem insertOk ws).2.httpCode ≠ 400 ∧
      Event.upload ("auto_None_" ++ uuid ++ ".jpg") b ∈
        (verify none (some img) uuid today gem insertOk ws).1) ∧
    (∀ (uuid today : String) (gem : Except Unit (Option String))
      (insertOk : Bool) (ws : List Worker),
      verify none none uuid today gem insertOk ws = ([], excResp) ∧
      excResp.httpCode = 500) := by
  refine ⟨?_, ?_, ?_, ?_, ?_⟩
  · intro wid ws h
    unfold precheck
    rw [h]
    rfl
  · intro nm ws insertOk h
    unfold add_worker
    rw [h]
    rfl
  · intro statusArg dateArg today
    rw [manual_mark_unfold, if_pos rfl]
  · intro uuid today gem insertOk ws img b hdec
    rw [verify_decode_some none img uuid today gem insertOk ws b hdec]
    constructor
    · rcases verifyCore_httpCode none (verify_ppe_with_gemini gem) today
        insertOk ws with h | h
      · rw [h]
        decide
      · rw [h]
        decide
    · exact List.mem_cons_self _ _
  · intro uuid today gem insertOk ws
    exact ⟨rfl, rfl⟩

/-- Witness for C8 (amended) at concrete requests. -/
theorem validation_by_endpoint_witness :
    precheck none [] =
      { httpCode := 400, status := some ("ERROR"),
        message := some ("Worker ID required") } ∧
    add_worker none [] true =
      ([], { httpCode := 400, error := some ("Name is required") }) ∧
    (verify none (some ("d,QUJE")) "u" "D" (Except.ok (some ("PPE_OK"))) true
      []).2.httpCode ≠ 400 := by
  refine ⟨validation_by_endpoint.1 none [] rfl,
    validation_by_endpoint.2.1 none [] true rfl,
    (validation_by_endpoint.2.2.2.1 ("u") "D" (Except.ok (some ("PPE_OK")))
      true [] "d,QUJE" [65, 66, 68] rfl).1⟩
